import Mathlib

/-!
Verification development for the feelscape repository.

The repository's spec describes a real-time emotion-inference core
(windowing buffer, signal preprocessor, emotion model, fusion policy,
stability and fail-safe decision engine, orchestrator).  The core's
Python implementation is not shipped under src/ (src/ holds only the
TypeScript UI and API glue that consumes it), so the core components
are modelled here from the spec's own words, as marked on each
definition.  The TypeScript services (SunoService / MusicService
polling, audio progress computation, the biometrics heart-rate
history) are embedded directly from the source files.

Numbers are embedded as rationals; JavaScript truthiness of optional
numbers and strings is made explicit where the source relies on it.
-/

namespace Feelscape

/-- Emotion labels.  The spec names two label-set variants sharing the
decision machinery: Ekman's 6-class set and a 3-class set, plus the
UNKNOWN startup label. -/
inductive Label where
  | happiness | sadness | anger | surprise | fear | disgust
  | positive | negative | neutral
  | unknown
  deriving DecidableEq, Repr

/-- Source modality of a window, feature vector or prediction. -/
inductive Modality where
  | eeg | physio | fused
  deriving DecidableEq, Repr

/-- Modelled from the spec: the Emotion State owned by the Decision
Engine — committed label, pending candidate label and the count of
consecutive agreeing predictions. -/
structure EmotionState where
  label : Label
  pending_label : Label
  pending_count : Nat
  deriving DecidableEq, Repr

/-- Modelled from the spec: a label-change event carrying the new
label, its confidence and a timestamp. -/
structure LabelChange where
  label : Label
  confidence : ℚ
  timestamp : ℚ
  deriving DecidableEq, Repr

/-- Modelled from the spec (§4.5, step 3): the stability gate of the
Decision Engine.  A candidate equal to the committed label resets the
pending count; a differing candidate equal to the pending label
increments the count, a differing candidate unequal to the pending
label restarts the count at 1; when the count reaches the required
consecutive-agreement count the candidate is committed and one
label-change event is emitted. -/
def stabilityStep (required : Nat) (st : EmotionState) (candidate : Label)
    (conf ts : ℚ) : EmotionState × Option LabelChange :=
  if candidate = st.label then
    ({ st with pending_count := 0 }, none)
  else
    let st' : EmotionState :=
      if candidate = st.pending_label then
        { st with pending_count := st.pending_count + 1 }
      else
        { st with pending_label := candidate, pending_count := 1 }
    if required ≤ st'.pending_count then
      ({ label := st'.pending_label, pending_label := st'.pending_label,
         pending_count := 0 }, some ⟨st'.pending_label, conf, ts⟩)
    else
      (st', none)

/-- The sequence of Emotion States reached while feeding a list of
candidate labels (with confidence and timestamp) through the
stability gate. -/
def stability_trace (required : Nat) (st : EmotionState) :
    List (Label × ℚ × ℚ) → List EmotionState
  | [] => []
  | c :: rest =>
    let st' := (stabilityStep required st c.1 c.2.1 c.2.2).1
    st' :: stability_trace required st' rest

/-- Modelled from the spec (§6): the short-term rolling physiological
summary the fail-safe rule table reads — current heart rate (BPM),
the recent heart-rate slope over the last window, and the current
breathing rate. -/
structure PhysioSummary where
  hr : ℚ
  hr_slope : ℚ
  br : ℚ
  deriving DecidableEq, Repr

/-- Configured thresholds of the fail-safe rule table. -/
structure RuleConfig where
  hr_high : ℚ
  hr_low : ℚ
  br_high : ℚ
  br_low : ℚ
  slope_rapid : ℚ
  step_up : ℚ
  deriving DecidableEq, Repr

/-- Modelled from the spec (§4.5, step 1): the fail-safe rule table, an
ordered deterministic rule list over the physiological summary.  High
heart rate with high short-term variability (a heart-rate slope of
rapid-change magnitude) gives FEAR; high heart rate with high
breathing rate, without the rapid-change signature, gives ANGER; low
heart rate with low breathing rate gives SADNESS; a sudden upward
step in heart rate within the last window gives SURPRISE; otherwise
the previous committed label is held. -/
def fail_safe_table (cfg : RuleConfig) (s : PhysioSummary) (prev : Label) : Label :=
  if cfg.hr_high < s.hr ∧ cfg.slope_rapid ≤ |s.hr_slope| then Label.fear
  else if cfg.hr_high < s.hr ∧ cfg.br_high < s.br then Label.anger
  else if s.hr < cfg.hr_low ∧ s.br < cfg.br_low then Label.sadness
  else if cfg.step_up < s.hr_slope then Label.surprise
  else prev

/-- Configuration of the Decision Engine. -/
structure DecisionConfig where
  confidence_threshold : ℚ
  required : Nat
  rules : RuleConfig

/-- One decision cycle's input: the fused Prediction's top label and
confidence, the low-quality tag from the Preprocessor, the
physiological summary, and the cycle timestamp. -/
structure CycleInput where
  top_label : Label
  confidence : ℚ
  low_quality : Bool
  physio : PhysioSummary
  timestamp : ℚ

/-- Modelled from the spec (§4.5, steps 1–2): the candidate label of a
decision cycle — the fail-safe rule table's output when the fused
confidence is below the threshold or the EEG input was tagged low
quality, and the classifier's top label otherwise. -/
def candidate_of (cfg : DecisionConfig) (prev : Label) (i : CycleInput) : Label :=
  if i.confidence < cfg.confidence_threshold ∨ i.low_quality then
    fail_safe_table cfg.rules i.physio prev
  else
    i.top_label

/-- The per-cycle trace of the Decision Engine: for each cycle input,
the candidate label chosen and the Emotion State after the stability
gate processed it. -/
def decision_trace (cfg : DecisionConfig) (st : EmotionState) :
    List CycleInput → List (Label × EmotionState)
  | [] => []
  | i :: rest =>
    let cand := candidate_of cfg st.label i
    let st' := (stabilityStep cfg.required st cand i.confidence i.timestamp).1
    (cand, st') :: decision_trace cfg st' rest

/-- A second definition following the spec's words for the
low-confidence case: every cycle's candidate comes from the
fail-safe rule table only (the classifier's top label is never
consulted), and the committed label changes only through the
stability gate. -/
def fail_safe_trace (cfg : DecisionConfig) (st : EmotionState) :
    List CycleInput → List (Label × EmotionState)
  | [] => []
  | i :: rest =>
    let cand := fail_safe_table cfg.rules i.physio st.label
    let st' := (stabilityStep cfg.required st cand i.confidence i.timestamp).1
    (cand, st') :: fail_safe_trace cfg st' rest

/-- Default rule thresholds used by the concrete fail-safe scenario:
heart-rate threshold ~100 BPM as the spec's default, with
representative values for the remaining thresholds. -/
def default_rules : RuleConfig :=
  { hr_high := 100, hr_low := 55, br_high := 20, br_low := 10,
    slope_rapid := 20, step_up := 15 }

/-- Default Decision Engine configuration: confidence threshold 0.6 and
required consecutive-agreement count 3, per the spec's defaults. -/
def default_decision : DecisionConfig :=
  { confidence_threshold := 3 / 5, required := 3, rules := default_rules }

/-- Cycle input of the C4 scenario: heart rate 130 BPM with a rapid
upward slope over the last windows, EEG confidence 0.5 below the 0.6
threshold. -/
def c4_input : CycleInput :=
  { top_label := Label.happiness, confidence := 1 / 2, low_quality := false,
    physio := { hr := 130, hr_slope := 25, br := 16 }, timestamp := 0 }

/-- A Feature Vector: a fixed-dimension numeric vector tagged with its
source modality and window timestamp. -/
structure FeatureVector where
  values : List ℚ
  modality : Modality
  window_ts : ℚ
  deriving DecidableEq, Repr

/-- A Prediction: a probability distribution over the configured label
set, tagged with its source modality and a scalar confidence (the
maximum probability). -/
structure Prediction where
  probs : List ℚ
  modality : Modality
  confidence : ℚ
  deriving DecidableEq, Repr

/-- Modelled from the spec: an Emotion Model's loaded parameter set —
one weight row per label of the configured label set, with the fixed
input dimensionality matching the Preprocessor's output.  The exact
architecture is a replaceable implementation detail; a linear scoring
layer stands in for it. -/
structure EmotionModel where
  weights : List (List ℚ)
  input_dim : Nat

/-- Dot product of two rational vectors. -/
def dot (xs ys : List ℚ) : ℚ :=
  (List.zipWith (fun a b => a * b) xs ys).sum

/-- Raw per-label scores of the model on an input vector. -/
def linear_scores (w : List (List ℚ)) (x : List ℚ) : List ℚ :=
  w.map (fun row => dot row x)

/-- Modelled from the spec: the output layer turns raw scores into a
valid probability distribution — negative scores are clipped at zero
and the rest divided by their total, falling back to the uniform
distribution when the total is zero. -/
def normalize_scores (scores : List ℚ) : List ℚ :=
  let pos := scores.map (fun z => max z 0)
  let s := pos.sum
  if s = 0 then scores.map (fun _ => 1 / (scores.length : ℚ))
  else pos.map (fun z => z / s)

/-- Modelled from the spec (§4.3): predict(feature_vector, modality)
returns a Prediction over the configured label set; the confidence is
the maximum probability. -/
def predict (models : Modality → EmotionModel) (fv : FeatureVector)
    (m : Modality) : Prediction :=
  let p := normalize_scores (linear_scores (models m).weights fv.values)
  { probs := p, modality := m, confidence := p.foldr max 0 }

/-- Concrete model set used by the C2 witness. -/
def c2_models : Modality → EmotionModel := fun _ =>
  { weights := [[1, 0], [0, 1], [1, 1]], input_dim := 2 }

/-- Concrete feature vector used by the C2 witness. -/
def c2_fv : FeatureVector :=
  { values := [2, 3], modality := Modality.eeg, window_ts := 0 }

/-- A timestamped scalar reading from a single stream. -/
structure Sample where
  stream_id : String
  timestamp : ℚ
  value : ℚ
  deriving DecidableEq, Repr

/-- Modelled from the spec (§3/§4.1): appending a Sample to one Channel
Stream evicts the samples older than the retention horizon measured
from the newest sample (ring-buffer semantics). -/
def push_stream (horizon : ℚ) (stream : List Sample) (s : Sample) : List Sample :=
  (stream ++ [s]).filter (fun x => decide (s.timestamp - horizon ≤ x.timestamp))

/-- Modelled from the spec (§4.1): push(stream_id, sample) appends the
sample to the named Channel Stream, leaving the other streams of the
Windowing Buffer untouched. -/
def push (horizon : ℚ) (buf : String → List Sample) (sid : String) (s : Sample) :
    String → List Sample :=
  fun id => if id = sid then push_stream horizon (buf sid) s else buf id

/-- Per-modality windowing configuration: window length in samples,
step size, and whether windows overlap. -/
structure WindowConfig where
  window_size : Nat
  step : Nat
  overlapping : Bool

/-- Per-modality buffer bookkeeping: the accumulated samples and the
start/end positions of the last emitted window. -/
structure ModalityBuffer where
  samples : List ℚ
  last_start : Nat
  last_end : Nat

/-- A fixed-length window of samples tagged with its modality. -/
structure Window where
  data : List ℚ
  modality : Modality
  deriving DecidableEq, Repr

/-- The start position of the next window for a modality: the last
window's start plus the step size when windows overlap, the last
window's end otherwise. -/
def next_start (c : WindowConfig) (b : ModalityBuffer) : Nat :=
  if c.overlapping then b.last_start + c.step else b.last_end

/-- Modelled from the spec (§4.1): try_build_window(modality) returns a
Window exactly when enough fresh samples have accumulated, and the
value "not ready" (none) otherwise; absence of data is routine, not
an error, so the return type carries no failure case. -/
def try_build_window (cfg : Modality → WindowConfig)
    (buf : Modality → ModalityBuffer) (m : Modality) : Option Window :=
  if next_start (cfg m) (buf m) + (cfg m).window_size ≤ (buf m).samples.length then
    some { data := ((buf m).samples.drop (next_start (cfg m) (buf m))).take
                     (cfg m).window_size,
           modality := m }
  else
    none

/-- The spec's readiness condition in its own words: enough fresh
samples exist since the last window's end (non-overlapping) or since
its start plus the step size (overlapping). -/
def enough_fresh (c : WindowConfig) (b : ModalityBuffer) : Prop :=
  if c.overlapping then
    b.last_start + c.step + c.window_size ≤ b.samples.length
  else
    b.last_end + c.window_size ≤ b.samples.length

/-- Concrete buffer used by the C7 witness. -/
def c7_buf : String → List Sample := fun _ =>
  [{ stream_id := "hr", timestamp := 0, value := 60 },
   { stream_id := "hr", timestamp := 5, value := 62 }]

/-- Concrete sample used by the C7 witness. -/
def c7_sample : Sample := { stream_id := "hr", timestamp := 12, value := 70 }

/-- The ambient runtime context a call executes in: an entropy source
and a tick counter.  The spec requires inference to be deterministic
— it must not consult either. -/
structure RuntimeCtx where
  rng_seed : Nat
  tick_count : Nat

/-- A multi-channel EEG window, aligned by timestamp. -/
structure EegWindow where
  channels : List (List ℚ)
  ts : ℚ

/-- Arithmetic mean of a rational list (0 for the empty list). -/
def mean (xs : List ℚ) : ℚ := xs.sum / xs.length

/-- Modelled from the spec (§4.2): removal of DC drift — each channel
is re-centred on its window mean (the low edge of the band-pass). -/
def high_pass (xs : List ℚ) : List ℚ := xs.map (fun x => x - mean xs)

/-- Modelled from the spec (§4.2): suppression of high-frequency noise
by adjacent-sample smoothing (the high edge of the band-pass, also
standing in for the power-line notch). -/
def low_pass (xs : List ℚ) : List ℚ :=
  List.zipWith (fun a b => (a + b) / 2) xs xs.tail

/-- The spec's band-pass stage: DC removal then smoothing. -/
def band_pass (xs : List ℚ) : List ℚ := low_pass (high_pass xs)

/-- Modelled from the spec (§4.2): artifact rejection zeroes the
segments whose amplitude exceeds the threshold. -/
def artifact_reject (thr : ℚ) (xs : List ℚ) : List ℚ :=
  xs.map (fun x => if thr < |x| then 0 else x)

/-- Mean absolute deviation, the scale used for per-channel
normalization (exact-arithmetic stand-in for the standard
deviation). -/
def mad (xs : List ℚ) : ℚ := mean (xs.map (fun x => |x - mean xs|))

/-- Modelled from the spec (§4.2): per-channel normalization to zero
mean and unit scale (scale 1 is used when the deviation is zero). -/
def normalize_channel (xs : List ℚ) : List ℚ :=
  let μ := mean xs
  let scale := if mad xs = 0 then 1 else mad xs
  xs.map (fun x => (x - μ) / scale)

/-- Window variance of a channel. -/
def variance (xs : List ℚ) : ℚ :=
  mean (xs.map (fun x => (x - mean xs) * (x - mean xs)))

/-- Number of sign changes between adjacent samples. -/
def zero_crossings (xs : List ℚ) : ℚ :=
  (List.zipWith (fun a b => if a * b < 0 then (1 : ℚ) else 0) xs xs.tail).sum

/-- Modelled from the spec (§4.2): the per-channel feature block —
statistical moments, zero-crossing rate and signal power after the
filter chain. -/
def channel_features (thr : ℚ) (ch : List ℚ) : List ℚ :=
  let cleaned := normalize_channel (artifact_reject thr (band_pass ch))
  [mean cleaned, variance cleaned, zero_crossings cleaned,
   mean (cleaned.map (fun x => x * x))]

/-- Modelled from the spec (§4.2): process_eeg(window) concatenates the
per-channel features into one fixed-dimension Feature Vector.  The
runtime context is a parameter of every call but, per the spec's
determinism requirement, is never consulted. -/
def process_eeg (_ctx : RuntimeCtx) (thr : ℚ) (w : EegWindow) : FeatureVector :=
  { values := (w.channels.map (channel_features thr)).flatten,
    modality := Modality.eeg, window_ts := w.ts }

/-- Two consecutive runs of the Preprocessor on the identical window,
with the runtime context advancing between the runs. -/
def preprocess_twice (ctx : RuntimeCtx) (thr : ℚ) (w : EegWindow) :
    FeatureVector × FeatureVector :=
  let first := process_eeg ctx thr w
  let ctx2 := { ctx with tick_count := ctx.tick_count + 1 }
  let second := process_eeg ctx2 thr w
  (first, second)

/-- Modelled from the spec (§4.3): model inference as invoked by the
runtime — deterministic given identical weights and input, consulting
no randomness from the runtime context. -/
def predict_rt (_ctx : RuntimeCtx) (models : Modality → EmotionModel)
    (fv : FeatureVector) (m : Modality) : Prediction :=
  predict models fv m

/-- A clip as returned by the check-status endpoint (SunoClip /
MusicClip of src/unnamed/part_002): status string, audio URL with
null/undefined embedded as none, and the metadata error message. -/
structure Clip where
  id : String
  status : String
  audio_url : Option String
  error_message : Option String
  deriving DecidableEq, Repr

/-- A StatusResponse of src/unnamed/part_002: success flag and the
optional clip list (absent field embedded as none). -/
structure StatusResponse where
  success : Bool
  clips : Option (List Clip)
  deriving DecidableEq, Repr

/-- JavaScript truthiness of the audio_url field as tested by
pollForCompletion: null, undefined and the empty string are falsy. -/
def truthy_url : Option String → Bool
  | none => false
  | some u => !(u == "")

/-- The completedClips filter of pollForCompletion
(src/unnamed/part_002 lines 418-420 and 785-787):
status === "complete" and a truthy audio_url. -/
def is_complete (c : Clip) : Bool :=
  c.status == "complete" && truthy_url c.audio_url

/-- The errorClips filter of pollForCompletion: status === "error". -/
def is_error (c : Clip) : Bool := c.status == "error"

/-- The four ways a pollForCompletion promise settles. -/
inductive PollResult where
  | resolved (clips : List Clip)
  | all_failed (messages : List (Option String))
  | max_attempts_reached
  | timed_out
  deriving DecidableEq, Repr

/-- One iteration of the poll callback of
SunoService.pollForCompletion (src/unnamed/part_002 lines 395-464) and
MusicService.pollForCompletion (lines 753-831), whose control flow is
identical (the MusicService variant only adds a progress callback).
The argument a is the attempt counter after its increment; none means
"continue polling".  An unsuccessful response or a missing clip list
retries until the attempt limit; otherwise the checks run in source
order: all-clips-error rejection, some-complete resolution, then the
attempt limit. -/
def poll_step (maxAttempts a : Nat) (r : StatusResponse) : Option PollResult :=
  match r.success, r.clips with
  | true, some clips =>
    if (clips.filter is_error).length = clips.length then
      some (PollResult.all_failed ((clips.filter is_error).map Clip.error_message))
    else if 0 < (clips.filter is_complete).length then
      some (PollResult.resolved clips)
    else if maxAttempts ≤ a then
      some PollResult.timed_out
    else none
  | _, _ =>
    if maxAttempts ≤ a then some PollResult.max_attempts_reached else none

/-- The polling loop, fuelled: attempt a+1 consumes the response at
stream index a.  The fuel maxAttempts+1 of pollForCompletion is never
exhausted because poll_step stops continuing once the attempt counter
reaches maxAttempts. -/
def poll_aux (maxAttempts : Nat) (responses : Nat → StatusResponse) :
    Nat → Nat → PollResult
  | 0, _ => PollResult.max_attempts_reached
  | fuel + 1, a =>
    match poll_step maxAttempts (a + 1) (responses a) with
    | some res => res
    | none => poll_aux maxAttempts responses fuel (a + 1)

/-- pollForCompletion against a stream of status responses (the k-th
poll reads responses (k-1)). -/
def pollForCompletion (responses : Nat → StatusResponse) (maxAttempts : Nat) :
    PollResult :=
  poll_aux maxAttempts responses (maxAttempts + 1) 0

/-- A response on which a poll iteration neither resolves nor rejects
for clip reasons: unsuccessful or clip-less (it retries), or a clip
list with no completed clip that is not all-error. -/
def non_decisive (r : StatusResponse) : Bool :=
  match r.success, r.clips with
  | true, some clips =>
    !(decide ((clips.filter is_error).length = clips.length))
      && decide ((clips.filter is_complete).length = 0)
  | _, _ => true

/-- A completed clip with a real audio URL, for the C8 witness. -/
def c8_good_clip : Clip :=
  { id := "c1", status := "complete",
    audio_url := some "https://cdn.suno.ai/a.mp3", error_message := none }

/-- A response stream that immediately reports the good clip. -/
def c8_good_stream : Nat → StatusResponse :=
  fun _ => { success := true, clips := some [c8_good_clip] }

/-- A clip with status complete and a non-null but empty audio URL —
the C8 counterexample input. -/
def c8_empty_url_clip : Clip :=
  { id := "c1", status := "complete", audio_url := some "",
    error_message := none }

/-- A response stream that always reports the empty-URL clip. -/
def c8_empty_url_stream : Nat → StatusResponse :=
  fun _ => { success := true, clips := some [c8_empty_url_clip] }

/-- Per-clip metadata as read by the progress helpers: the optional
duration. -/
structure ClipMeta where
  duration : Option ℚ
  deriving DecidableEq, Repr

/-- JavaScript a || b on optional numbers: a when truthy (present and
non-zero), b otherwise. -/
def js_or_num (a b : Option ℚ) : Option ℚ :=
  match a with
  | some x => if x = 0 then b else some x
  | none => b

/-- JavaScript a || b on an optional number with a number fallback. -/
def js_or_end (a : Option ℚ) (b : ℚ) : ℚ :=
  match a with
  | some x => if x = 0 then b else x
  | none => b

/-- The effective duration read by getProgressPercentage of
src/unnamed/part_000: clip ? (clip.metadata.duration ||
duration[clipId]) : duration[clipId]. -/
def effective_duration (duration : String → Option ℚ) (clipId : String)
    (clip : Option ClipMeta) : Option ℚ :=
  match clip with
  | some c => js_or_num c.duration (duration clipId)
  | none => duration clipId

/-- Embeds getProgressPercentage of src/unnamed/part_000 lines
138-145: position from the currentTime map (0 when absent), duration
resolved as above; unknown or non-positive duration returns 0, and
the quotient is clamped into [0, 100]. -/
def getProgressPercentage (currentTime duration : String → Option ℚ)
    (clipId : String) (clip : Option ClipMeta) : ℚ :=
  let pos := (currentTime clipId).getD 0
  match effective_duration duration clipId clip with
  | none => 0
  | some d => if d ≤ 0 then 0 else min 100 (max 0 (pos / d * 100))

/-- Embeds getClipDuration of src/src/app/components/ui/musicpopup.tsx
line 109: duration[clip.id] || clip.metadata.duration || 0. -/
def getClipDuration (duration : String → Option ℚ) (cid : String)
    (meta : ClipMeta) : ℚ :=
  js_or_end (duration cid) (js_or_end meta.duration 0)

/-- Embeds getDisplayPosition of musicpopup.tsx line 110: the drag
position while this clip is being dragged and one is recorded,
otherwise currentTime[clipId] || 0. -/
def getDisplayPosition (isDragging : Option String)
    (dragPosition currentTime : String → Option ℚ) (cid : String) : ℚ :=
  if isDragging = some cid ∧ (dragPosition cid).isSome then
    (dragPosition cid).getD 0
  else
    (currentTime cid).getD 0

/-- Embeds getProgressPercentage of musicpopup.tsx lines 111-116 (the
isFinite guard always passes in exact rational arithmetic). -/
def getProgressPercentage_v2 (isDragging : Option String)
    (dragPosition currentTime duration : String → Option ℚ)
    (clipId : String) (clip : Option (String × ClipMeta)) : ℚ :=
  let position := getDisplayPosition isDragging dragPosition currentTime clipId
  let clipDuration : Option ℚ :=
    match clip with
    | some p => some (getClipDuration duration p.1 p.2)
    | none => duration clipId
  match clipDuration with
  | none => 0
  | some d => if d ≤ 0 then 0 else min 100 (max 0 (position / d * 100))

/-- The chart length bound of the biometrics popup. -/
def MAX_POINTS : Nat := 30

/-- One point of the biometrics heart-rate chart. -/
structure HRPoint where
  time : String
  hr : ℚ
  deriving DecidableEq, Repr

/-- Embeds the hrHistory state update of fetchHR
(src/components/ui/biometricspopup.tsx lines 40-45): append the new
reading, then slice(-MAX_POINTS) keeps the most recent MAX_POINTS
entries. -/
def update_hr_history (prev : List HRPoint) (e : HRPoint) : List HRPoint :=
  let updated := prev ++ [e]
  updated.drop (updated.length - MAX_POINTS)

end Feelscape

namespace Feelscape

/-- C1: stability gate of the Decision Engine.  Starting from committed
label A with pending count 0 and required agreement count 3, the
candidate sequence [A, B, B, B] moves the committed label to B exactly
on the third consecutive B and at no earlier step; in general a
differing candidate equal to the pending label increments the pending
count, a differing candidate unequal to the pending label restarts it
at 1, and a commit (with exactly one emitted label-change event)
happens exactly when the count reaches the required count. -/
theorem c1_stability_gate (A B pl : Label) (c t : ℚ) (hAB : A ≠ B) :
    ((stability_trace 3 ⟨A, pl, 0⟩
        [(A, c, t), (B, c, t), (B, c, t), (B, c, t)]).map EmotionState.label
      = [A, A, A, B])
    ∧ (∀ (req : Nat) (st : EmotionState) (cand : Label) (conf ts : ℚ),
        cand ≠ st.label → cand = st.pending_label →
        stabilityStep req st cand conf ts =
          if req ≤ st.pending_count + 1 then
            (⟨cand, cand, 0⟩, some ⟨cand, conf, ts⟩)
          else
            ({ st with pending_count := st.pending_count + 1 }, none))
    ∧ (∀ (req : Nat) (st : EmotionState) (cand : Label) (conf ts : ℚ),
        cand ≠ st.label → cand ≠ st.pending_label →
        stabilityStep req st cand conf ts =
          if req ≤ 1 then
            (⟨cand, cand, 0⟩, some ⟨cand, conf, ts⟩)
          else
            ({ st with pending_label := cand, pending_count := 1 }, none))
    ∧ (∀ (req : Nat) (st : EmotionState) (cand : Label) (conf ts : ℚ),
        cand ≠ st.label →
        (((stabilityStep req st cand conf ts).2).isSome ↔
          req ≤ (if cand = st.pending_label then st.pending_count + 1 else 1))) := by
  refine ⟨?_, ?_, ?_, ?_⟩
  · by_cases hpl : B = pl
    · subst hpl
      simp [stability_trace, stabilityStep, hAB, Ne.symm hAB]
    · simp [stability_trace, stabilityStep, hAB, Ne.symm hAB, hpl]
  · intro req st cand conf ts hne heq
    subst heq
    by_cases hreq : req ≤ st.pending_count + 1 <;>
      simp [stabilityStep, hne, hreq]
  · intro req st cand conf ts hne hneq
    by_cases hreq : req ≤ 1 <;>
      simp [stabilityStep, hne, hneq, hreq]
  · intro req st cand conf ts hne
    by_cases heq : cand = st.pending_label
    · subst heq
      by_cases hreq : req ≤ st.pending_count + 1 <;>
        simp [stabilityStep, hne, hreq]
    · by_cases hreq : req ≤ 1 <;>
        simp [stabilityStep, hne, heq, hreq]

/-- Witness for C1 at concrete labels and parameters. -/
theorem c1_stability_gate_witness :
    ((stability_trace 3 ⟨Label.happiness, Label.unknown, 0⟩
        [(Label.happiness, 0, 0), (Label.sadness, 0, 0),
         (Label.sadness, 0, 0), (Label.sadness, 0, 0)]).map EmotionState.label
      = [Label.happiness, Label.happiness, Label.happiness, Label.sadness]) :=
  (c1_stability_gate Label.happiness Label.sadness Label.unknown 0 0
    (by decide)).1

/-- Helper: when every cycle's confidence is below the threshold, the
decision trace coincides with the fail-safe-only trace. -/
theorem decision_trace_eq_fail_safe (cfg : DecisionConfig) :
    ∀ (inputs : List CycleInput) (st : EmotionState),
      (∀ i ∈ inputs, i.confidence < cfg.confidence_threshold) →
      decision_trace cfg st inputs = fail_safe_trace cfg st inputs
  | [], _, _ => rfl
  | i :: rest, st, h => by
    have hi : i.confidence < cfg.confidence_threshold :=
      h i (List.mem_cons_self i rest)
    have hrest : ∀ j ∈ rest, j.confidence < cfg.confidence_threshold :=
      fun j hj => h j (List.mem_cons_of_mem i hj)
    have hcand : candidate_of cfg st.label i
        = fail_safe_table cfg.rules i.physio st.label := by
      simp [candidate_of, hi]
    simp only [decision_trace, fail_safe_trace, hcand]
    rw [decision_trace_eq_fail_safe cfg rest _ hrest]

/-- Helper: when every cycle's confidence is below the threshold, the
classifier's top label has no influence on the decision trace. -/
theorem decision_trace_top_independent (cfg : DecisionConfig) (g : CycleInput → Label) :
    ∀ (inputs : List CycleInput) (st : EmotionState),
      (∀ i ∈ inputs, i.confidence < cfg.confidence_threshold) →
      decision_trace cfg st (inputs.map fun i => { i with top_label := g i })
        = decision_trace cfg st inputs
  | [], _, _ => rfl
  | i :: rest, st, h => by
    have hi : i.confidence < cfg.confidence_threshold :=
      h i (List.mem_cons_self i rest)
    have hrest : ∀ j ∈ rest, j.confidence < cfg.confidence_threshold :=
      fun j hj => h j (List.mem_cons_of_mem i hj)
    have hcand : candidate_of cfg st.label { i with top_label := g i }
        = candidate_of cfg st.label i := by
      simp [candidate_of, hi]
    simp only [List.map_cons, decision_trace, hcand]
    rw [decision_trace_top_independent cfg g rest _ hrest]

/-- C3: for every sequence of fused Predictions whose confidence is
below the threshold, the Decision Engine's candidate in every cycle
comes from the fail-safe rule table (or holds the previous committed
label), never from the classifier path — the classifier's top label
has no influence — and the committed label evolves only through the
stability gate (as the fail-safe trace exhibits). -/
theorem c3_low_confidence_never_classifier (cfg : DecisionConfig)
    (st : EmotionState) (inputs : List CycleInput)
    (h : ∀ i ∈ inputs, i.confidence < cfg.confidence_threshold) :
    decision_trace cfg st inputs = fail_safe_trace cfg st inputs
    ∧ ∀ g : CycleInput → Label,
        decision_trace cfg st (inputs.map fun i => { i with top_label := g i })
          = decision_trace cfg st inputs :=
  ⟨decision_trace_eq_fail_safe cfg inputs st h,
   fun g => decision_trace_top_independent cfg g inputs st h⟩

/-- Witness for C3 at a concrete low-confidence input sequence. -/
theorem c3_low_confidence_never_classifier_witness :
    decision_trace default_decision ⟨Label.unknown, Label.unknown, 0⟩ [c4_input]
      = fail_safe_trace default_decision ⟨Label.unknown, Label.unknown, 0⟩ [c4_input] :=
  (c3_low_confidence_never_classifier default_decision
    ⟨Label.unknown, Label.unknown, 0⟩ [c4_input]
    (by
      intro i hi
      rw [List.mem_singleton] at hi
      subst hi
      norm_num [c4_input, default_decision])).1

/-- C4: the fail-safe rule table is a total deterministic function of
the physiological summary: high heart rate with high short-term
variability gives FEAR, high heart rate with high breathing rate and
no rapid-change signature gives ANGER, low heart rate with low
breathing rate gives SADNESS, a sudden upward heart-rate step gives
SURPRISE, and when no rule fires the previous committed label is
held; and in the concrete scenario (HR 130 BPM, rapid upward slope,
EEG confidence below threshold) the committed label becomes FEAR once
the stability criteria are met. -/
theorem c4_fail_safe_rules (cfg : RuleConfig) (s : PhysioSummary) (prev : Label)
    (hcfg : cfg.hr_low ≤ cfg.hr_high) :
    (cfg.hr_high < s.hr → cfg.slope_rapid ≤ |s.hr_slope| →
      fail_safe_table cfg s prev = Label.fear)
    ∧ (cfg.hr_high < s.hr → cfg.br_high < s.br → |s.hr_slope| < cfg.slope_rapid →
      fail_safe_table cfg s prev = Label.anger)
    ∧ (s.hr < cfg.hr_low → s.br < cfg.br_low →
      fail_safe_table cfg s prev = Label.sadness)
    ∧ (cfg.step_up < s.hr_slope → s.hr ≤ cfg.hr_high →
      ¬(s.hr < cfg.hr_low ∧ s.br < cfg.br_low) →
      fail_safe_table cfg s prev = Label.surprise)
    ∧ (¬(cfg.hr_high < s.hr ∧ cfg.slope_rapid ≤ |s.hr_slope|) →
      ¬(cfg.hr_high < s.hr ∧ cfg.br_high < s.br) →
      ¬(s.hr < cfg.hr_low ∧ s.br < cfg.br_low) →
      ¬(cfg.step_up < s.hr_slope) →
      fail_safe_table cfg s prev = prev)
    ∧ (fail_safe_table cfg s prev = Label.fear ∨
       fail_safe_table cfg s prev = Label.anger ∨
       fail_safe_table cfg s prev = Label.sadness ∨
       fail_safe_table cfg s prev = Label.surprise ∨
       fail_safe_table cfg s prev = prev)
    ∧ ((decision_trace default_decision ⟨Label.unknown, Label.unknown, 0⟩
          [c4_input, c4_input, c4_input]).map (fun p => p.2.label)
        = [Label.unknown, Label.unknown, Label.fear]) := by
  refine ⟨?_, ?_, ?_, ?_, ?_, ?_, ?_⟩
  · intro h1 h2
    simp [fail_safe_table, h1, h2]
  · intro h1 h2 h3
    have hns : ¬(cfg.slope_rapid ≤ |s.hr_slope|) := not_le.mpr h3
    simp [fail_safe_table, h1, h2, hns]
  · intro h1 h2
    have hh : ¬(cfg.hr_high < s.hr) := not_lt.mpr (le_of_lt (lt_of_lt_of_le h1 hcfg))
    simp [fail_safe_table, hh, h1, h2]
  · intro h1 h2 h3
    have hh : ¬(cfg.hr_high < s.hr) := not_lt.mpr h2
    simp [fail_safe_table, hh, h3, h1]
  · intro h1 h2 h3 h4
    simp [fail_safe_table, h1, h2, h3, h4]
  · unfold fail_safe_table
    split_ifs <;> simp
  · have habs : |(25 : ℚ)| = (25 : ℚ) := abs_of_pos (by norm_num)
    norm_num [decision_trace, candidate_of, c4_input, default_decision,
      default_rules, fail_safe_table, stabilityStep, habs]
    decide

/-- Witness for C4: at the default thresholds, the scenario's summary
(HR 130, rapid upward slope) makes the fail-safe table fire FEAR. -/
theorem c4_fail_safe_rules_witness :
    fail_safe_table default_rules c4_input.physio Label.unknown = Label.fear :=
  (c4_fail_safe_rules default_rules c4_input.physio Label.unknown
    (by norm_num [default_rules])).1
    (by norm_num [default_rules, c4_input])
    (le_trans (by norm_num [default_rules, c4_input]) (le_abs_self _))

/-- Helper: summing a list divided elementwise by a constant. -/
theorem sum_map_div_eq (l : List ℚ) (c : ℚ) :
    (l.map (fun z => z / c)).sum = l.sum / c := by
  induction l with
  | nil => simp
  | cons a t ih => simp [ih, add_div]

/-- Helper: every entry of a normalized score vector is non-negative. -/
theorem normalize_scores_nonneg (scores : List ℚ) :
    ∀ p ∈ normalize_scores scores, 0 ≤ p := by
  intro p hp
  unfold normalize_scores at hp
  by_cases hz : (List.map (fun z => max z 0) scores).sum = 0
  · rw [if_pos hz] at hp
    rcases List.mem_map.mp hp with ⟨a, _, rfl⟩
    exact div_nonneg zero_le_one (Nat.cast_nonneg _)
  · rw [if_neg hz] at hp
    rcases List.mem_map.mp hp with ⟨z, hzmem, rfl⟩
    rcases List.mem_map.mp hzmem with ⟨a, _, rfl⟩
    have hsnn : 0 ≤ (List.map (fun z => max z 0) scores).sum :=
      List.sum_nonneg (by
        intro x hx
        rcases List.mem_map.mp hx with ⟨b, _, rfl⟩
        exact le_max_right b 0)
    exact div_nonneg (le_max_right a 0) hsnn

/-- Helper: a normalized score vector over a non-empty label set sums
to exactly 1. -/
theorem normalize_scores_sum (scores : List ℚ) (h : scores ≠ []) :
    (normalize_scores scores).sum = 1 := by
  have hn : (scores.length : ℚ) ≠ 0 := by
    simpa [List.length_eq_zero] using h
  unfold normalize_scores
  by_cases hz : (List.map (fun z => max z 0) scores).sum = 0
  · rw [if_pos hz, List.map_const', List.sum_replicate, nsmul_eq_mul,
      mul_one_div, div_self hn]
  · rw [if_neg hz, sum_map_div_eq, div_self hz]

/-- C2: for every valid Feature Vector and modality, predict returns a
Prediction whose probability entries are non-negative and sum to 1
within a tolerance of 1e-6 (the sum is exactly 1 in exact
arithmetic). -/
theorem c2_predict_distribution (models : Modality → EmotionModel)
    (fv : FeatureVector) (m : Modality)
    (hw : (models m).weights ≠ [])
    (_hdim : fv.values.length = (models m).input_dim) :
    (∀ p ∈ (predict models fv m).probs, 0 ≤ p)
    ∧ |(predict models fv m).probs.sum - 1| ≤ 1 / 1000000 := by
  have hne : linear_scores (models m).weights fv.values ≠ [] := by
    intro hcon
    apply hw
    have hlen := congrArg List.length hcon
    simpa [linear_scores, List.length_eq_zero] using hlen
  refine ⟨?_, ?_⟩
  · intro p hp
    exact normalize_scores_nonneg _ p hp
  · have hsum : (predict models fv m).probs.sum = 1 :=
      normalize_scores_sum _ hne
    rw [hsum]
    norm_num

/-- Witness for C2 at a concrete model and feature vector. -/
theorem c2_predict_distribution_witness :
    (∀ p ∈ (predict c2_models c2_fv Modality.eeg).probs, 0 ≤ p)
    ∧ |(predict c2_models c2_fv Modality.eeg).probs.sum - 1| ≤ 1 / 1000000 :=
  c2_predict_distribution c2_models c2_fv Modality.eeg
    (by simp [c2_models]) (by simp [c2_models, c2_fv])

/-- C5: for every buffer state and every modality, try_build_window
returns a Window if and only if the readiness condition holds (enough
fresh samples since the last window's end, or since its start plus
the step when overlapping), and returns the "not ready" value (none)
in every other case — by its total Option-valued type it can raise no
error. -/
theorem c5_try_build_window_iff (cfg : Modality → WindowConfig)
    (buf : Modality → ModalityBuffer) (m : Modality) :
    ((try_build_window cfg buf m).isSome ↔ enough_fresh (cfg m) (buf m))
    ∧ ((try_build_window cfg buf m) = none ↔ ¬ enough_fresh (cfg m) (buf m)) := by
  have hiff : (try_build_window cfg buf m).isSome ↔ enough_fresh (cfg m) (buf m) := by
    unfold try_build_window enough_fresh next_start
    cases ho : (cfg m).overlapping
    · simp only [ho, Bool.false_eq_true, if_false]
      split_ifs with h <;> simp [h]
    · simp only [ho, if_true]
      split_ifs with h <;> simp [h]
  refine ⟨hiff, ?_⟩
  rw [← hiff]
  cases try_build_window cfg buf m <;> simp

/-- Helper: filtering a timestamp-sorted list by a lower timestamp
cutoff keeps a suffix (in particular, it keeps the samples in order
and drops exactly the oldest ones). -/
theorem filter_cutoff_suffix (c : ℚ) :
    ∀ l : List Sample, List.Pairwise (fun a b => a.timestamp ≤ b.timestamp) l →
      (l.filter (fun x => decide (c ≤ x.timestamp))) <:+ l
  | [], _ => by simp
  | a :: t, h => by
    rcases List.pairwise_cons.mp h with ⟨ha, ht⟩
    by_cases hc : c ≤ a.timestamp
    · have hall : (a :: t).filter (fun x => decide (c ≤ x.timestamp)) = a :: t :=
        List.filter_eq_self.mpr (fun b hb => by
          rcases List.mem_cons.mp hb with rfl | hb
          · exact decide_eq_true hc
          · exact decide_eq_true (le_trans hc (ha b hb)))
      rw [hall]
    · have hstep : (a :: t).filter (fun x => decide (c ≤ x.timestamp))
          = t.filter (fun x => decide (c ≤ x.timestamp)) := by
        simp [List.filter_cons, hc]
      rw [hstep]
      exact (filter_cutoff_suffix c t ht).trans (List.suffix_cons a t)

/-- C7: after push(stream_id, sample) on a stream with monotone
timestamps, the named Channel Stream holds only samples within the
retention horizon, remains in append order as a suffix of the
appended stream (so the evicted samples are exactly the oldest ones,
characterized by their timestamps), still contains the new sample,
and all other streams are untouched. -/
theorem c7_push_retention (horizon : ℚ) (buf : String → List Sample)
    (sid : String) (s : Sample)
    (hmono : List.Pairwise (fun a b => a.timestamp ≤ b.timestamp) (buf sid))
    (hlast : ∀ x ∈ buf sid, x.timestamp ≤ s.timestamp)
    (hhor : 0 ≤ horizon) :
    (∀ x ∈ push horizon buf sid s sid, s.timestamp - x.timestamp ≤ horizon)
    ∧ (push horizon buf sid s sid) <:+ (buf sid ++ [s])
    ∧ (∀ x ∈ buf sid ++ [s],
        (x ∈ push horizon buf sid s sid ↔ s.timestamp - horizon ≤ x.timestamp))
    ∧ s ∈ push horizon buf sid s sid
    ∧ (∀ id, id ≠ sid → push horizon buf sid s id = buf id) := by
  have hpush : push horizon buf sid s sid = push_stream horizon (buf sid) s := by
    simp [push]
  have happ : List.Pairwise (fun a b => a.timestamp ≤ b.timestamp) (buf sid ++ [s]) := by
    rw [List.pairwise_append]
    refine ⟨hmono, List.pairwise_singleton _ _, ?_⟩
    intro a hax b hb
    rw [List.mem_singleton] at hb
    subst hb
    exact hlast a hax
  refine ⟨?_, ?_, ?_, ?_, ?_⟩
  · intro x hx
    rw [hpush] at hx
    have := (List.mem_filter.mp hx).2
    exact sub_le_comm.mp (of_decide_eq_true this)
  · rw [hpush]
    exact filter_cutoff_suffix _ _ happ
  · intro x hx
    rw [hpush]
    constructor
    · intro hmem
      exact of_decide_eq_true (List.mem_filter.mp hmem).2
    · intro hts
      exact List.mem_filter.mpr ⟨hx, decide_eq_true hts⟩
  · rw [hpush]
    refine List.mem_filter.mpr ⟨by simp, decide_eq_true ?_⟩
    exact sub_le_self _ hhor
  · intro id hid
    simp [push, hid]

/-- Witness for C7 at a concrete stream and sample. -/
theorem c7_push_retention_witness :
    (push 10 c7_buf "hr" c7_sample "hr") <:+ (c7_buf "hr" ++ [c7_sample]) :=
  (c7_push_retention 10 c7_buf "hr" c7_sample
    (by simp [c7_buf, List.pairwise_cons])
    (by
      intro x hx
      simp [c7_buf] at hx
      rcases hx with rfl | rfl <;> norm_num [c7_sample])
    (by norm_num)).2.1

/-- Helper: a non-decisive response below the attempt limit makes the
poll iteration continue. -/
theorem poll_step_none (M a : Nat) (r : StatusResponse)
    (h : non_decisive r = true) (ha : a < M) :
    poll_step M a r = none := by
  rcases r with ⟨succ, clips⟩
  cases succ
  · simp [poll_step, Nat.not_le.mpr ha]
  · cases clips with
    | none => simp [poll_step, Nat.not_le.mpr ha]
    | some cl =>
      simp only [non_decisive, Bool.and_eq_true, Bool.not_eq_true',
        decide_eq_false_iff_not, decide_eq_true_eq] at h
      simp [poll_step, h.1, h.2, Nat.not_le.mpr ha]

/-- Helper: skipping k consecutive non-decisive responses below the
attempt limit advances the polling loop. -/
theorem poll_aux_skip (M : Nat) (s : Nat → StatusResponse) :
    ∀ (k a fuel : Nat), (∀ j, j < k → non_decisive (s (a + j)) = true) →
      a + k < M → k ≤ fuel →
      poll_aux M s fuel a = poll_aux M s (fuel - k) (a + k)
  | 0, a, fuel, _, _, _ => by simp
  | k + 1, a, 0, _, _, hf => absurd hf (by omega)
  | k + 1, a, fuel + 1, h, hM, hf => by
    have h0 : non_decisive (s a) = true := by
      have h00 := h 0 (Nat.succ_pos k)
      simpa using h00
    have hstep : poll_step M (a + 1) (s a) = none :=
      poll_step_none M (a + 1) (s a) h0 (by omega)
    have hrec := poll_aux_skip M s k (a + 1) fuel
      (fun j hj => by
        have hs := h (j + 1) (by omega)
        have harith : a + (j + 1) = a + 1 + j := by omega
        rwa [harith] at hs)
      (by omega) (by omega)
    have harith2 : a + 1 + k = a + (k + 1) := by omega
    rw [harith2] at hrec
    rw [Nat.succ_sub_succ]
    rw [← hrec]
    simp [poll_aux, hstep]

/-- Helper: a successful response with some completed clip resolves the
loop with the full clip list. -/
theorem poll_aux_resolve (M a fuel : Nat) (s : Nat → StatusResponse)
    (cl : List Clip)
    (hsucc : (s a).success = true) (hclips : (s a).clips = some cl)
    (hcomp : 0 < (cl.filter is_complete).length) :
    poll_aux M s (fuel + 1) a = PollResult.resolved cl := by
  have herr : ¬((cl.filter is_error).length = cl.length) := by
    intro hlen
    have hall : ∀ c ∈ cl, is_error c = true :=
      List.filter_length_eq_length.mp hlen
    rcases List.exists_mem_of_ne_nil _ (List.length_pos.mp hcomp) with ⟨c, hc⟩
    rcases List.mem_filter.mp hc with ⟨hcmem, hccomp⟩
    have hstat : c.status = "complete" := by
      have hb := (Bool.and_eq_true _ _).mp hccomp
      exact beq_iff_eq.mp hb.1
    have herrc := hall c hcmem
    rw [is_error, hstat] at herrc
    exact absurd herrc (by decide)
  have hstep : poll_step M (a + 1) (s a) = PollResult.resolved cl := by
    rcases hr : s a with ⟨succ, clips⟩
    rw [hr] at hsucc hclips
    subst hsucc
    simp only at hclips
    subst hclips
    simp [poll_step, herr, hcomp]
  simp [poll_aux, hstep]

/-- Helper: a successful response whose clips are all in error rejects
the loop with the all-failed error. -/
theorem poll_aux_all_failed (M a fuel : Nat) (s : Nat → StatusResponse)
    (cl : List Clip)
    (hsucc : (s a).success = true) (hclips : (s a).clips = some cl)
    (herr : (cl.filter is_error).length = cl.length) :
    poll_aux M s (fuel + 1) a =
      PollResult.all_failed ((cl.filter is_error).map Clip.error_message) := by
  have hstep : poll_step M (a + 1) (s a) =
      PollResult.all_failed ((cl.filter is_error).map Clip.error_message) := by
    rcases hr : s a with ⟨succ, clips⟩
    rw [hr] at hsucc hclips
    subst hsucc
    simp only at hclips
    subst hclips
    simp [poll_step, herr]
  simp [poll_aux, hstep]

/-- Helper: a non-decisive response at the attempt limit rejects the
loop with a timeout or max-attempts error. -/
theorem poll_aux_last (M a fuel : Nat) (s : Nat → StatusResponse)
    (hM : M ≤ a + 1) (hnd : non_decisive (s a) = true) :
    poll_aux M s (fuel + 1) a = PollResult.timed_out
    ∨ poll_aux M s (fuel + 1) a = PollResult.max_attempts_reached := by
  rcases hr : s a with ⟨succ, clips⟩
  rw [hr] at hnd
  cases succ
  · right
    simp [poll_aux, poll_step, hr, hM]
  · cases clips with
    | none => right; simp [poll_aux, poll_step, hr, hM]
    | some cl =>
      left
      simp only [non_decisive, Bool.and_eq_true, Bool.not_eq_true',
        decide_eq_false_iff_not, decide_eq_true_eq] at hnd
      have h1 : ¬ ∀ c ∈ cl, is_error c = true :=
        fun hall => hnd.1 (List.filter_length_eq_length.mpr hall)
      simp [poll_aux, poll_step, hr, h1, hnd.2, hM]

/-- C8 (amended): pollForCompletion (shared by SunoService and
MusicService) resolves with the full clip list on the first poll whose
response is successful and holds a clip with status complete and a
truthy (non-null and non-empty) audio_url; it rejects with the
all-clips-failed error on the first poll whose successful response has
every clip in status error; and when no poll is decisive it rejects
after maxAttempts polls with a timeout or max-attempts error rather
than polling forever. -/
theorem c8_poll_for_completion (s : Nat → StatusResponse) (M : Nat) :
    (∀ (k : Nat) (cl : List Clip), k < M →
      (∀ j, j < k → non_decisive (s j) = true) →
      (s k).success = true → (s k).clips = some cl →
      0 < (cl.filter is_complete).length →
      pollForCompletion s M = PollResult.resolved cl)
    ∧ (∀ (k : Nat) (cl : List Clip), k < M →
      (∀ j, j < k → non_decisive (s j) = true) →
      (s k).success = true → (s k).clips = some cl →
      (cl.filter is_error).length = cl.length →
      pollForCompletion s M =
        PollResult.all_failed ((cl.filter is_error).map Clip.error_message))
    ∧ (0 < M → (∀ j, j < M → non_decisive (s j) = true) →
      pollForCompletion s M = PollResult.timed_out
      ∨ pollForCompletion s M = PollResult.max_attempts_reached) := by
  refine ⟨?_, ?_, ?_⟩
  · intro k cl hk hprev hsucc hclips hcomp
    unfold pollForCompletion
    have hskip := poll_aux_skip M s k 0 (M + 1)
      (fun j hj => by simpa using hprev j hj) (by omega) (by omega)
    simp only [Nat.zero_add] at hskip
    rw [hskip, show M + 1 - k = (M - k) + 1 from by omega]
    exact poll_aux_resolve M k (M - k) s cl hsucc hclips hcomp
  · intro k cl hk hprev hsucc hclips herr
    unfold pollForCompletion
    have hskip := poll_aux_skip M s k 0 (M + 1)
      (fun j hj => by simpa using hprev j hj) (by omega) (by omega)
    simp only [Nat.zero_add] at hskip
    rw [hskip, show M + 1 - k = (M - k) + 1 from by omega]
    exact poll_aux_all_failed M k (M - k) s cl hsucc hclips herr
  · intro hM hall
    unfold pollForCompletion
    have hskip := poll_aux_skip M s (M - 1) 0 (M + 1)
      (fun j hj => by
        have := hall j (by omega)
        simpa using this)
      (by omega) (by omega)
    simp only [Nat.zero_add] at hskip
    rw [hskip, show M + 1 - (M - 1) = 1 + 1 from by omega]
    exact poll_aux_last M (M - 1) 1 s (by omega) (hall (M - 1) (by omega))

/-- Counterexample to C8 as stated: a first poll whose clip has status
complete and a non-null (but empty-string) audio_url does not make
pollForCompletion resolve — the truthiness test rejects the empty
string and the call times out instead. -/
theorem c8_non_null_counterexample :
    c8_empty_url_clip.status = "complete"
    ∧ c8_empty_url_clip.audio_url ≠ none
    ∧ (c8_empty_url_stream 0).success = true
    ∧ (c8_empty_url_stream 0).clips = some [c8_empty_url_clip]
    ∧ pollForCompletion c8_empty_url_stream 1 ≠
        PollResult.resolved [c8_empty_url_clip]
    ∧ pollForCompletion c8_empty_url_stream 1 = PollResult.timed_out := by
  refine ⟨rfl, by decide, rfl, rfl, ?_, ?_⟩ <;> decide

/-- Witness for C8 (amended) at a concrete stream: one good clip on the
first poll resolves immediately. -/
theorem c8_poll_for_completion_witness :
    pollForCompletion c8_good_stream 3 = PollResult.resolved [c8_good_clip] :=
  (c8_poll_for_completion c8_good_stream 3).1 0 [c8_good_clip]
    (by omega) (fun j hj => absurd hj (Nat.not_lt_zero j))
    rfl rfl (by decide)

/-- C6: determinism of the inference path as a two-run property —
processing the identical window twice through the Preprocessor yields
bit-for-identical Feature Vectors, and model inference on identical
weights and identical input yields identical Predictions, whatever
the ambient runtime context (no randomness at inference time). -/
theorem c6_deterministic_inference (c1 c2 : RuntimeCtx) (thr : ℚ)
    (w : EegWindow) (models : Modality → EmotionModel)
    (fv : FeatureVector) (m : Modality) :
    process_eeg c1 thr w = process_eeg c2 thr w
    ∧ (preprocess_twice c1 thr w).1 = (preprocess_twice c1 thr w).2
    ∧ predict_rt c1 models fv m = predict_rt c2 models fv m :=
  ⟨rfl, rfl, rfl⟩

/-- C9: both getProgressPercentage implementations return a progress
value in the closed interval [0, 100] for every state of the
currentTime, duration and dragPosition maps, and return 0 whenever
the effective duration is unknown (absent) or non-positive, so the
division never produces an out-of-range progress value. -/
theorem c9_progress_in_range (currentTime duration dragPosition : String → Option ℚ)
    (isDragging : Option String) (clipId : String)
    (clip : Option ClipMeta) (clip2 : Option (String × ClipMeta)) :
    (0 ≤ getProgressPercentage currentTime duration clipId clip
      ∧ getProgressPercentage currentTime duration clipId clip ≤ 100)
    ∧ (0 ≤ getProgressPercentage_v2 isDragging dragPosition currentTime duration
          clipId clip2
      ∧ getProgressPercentage_v2 isDragging dragPosition currentTime duration
          clipId clip2 ≤ 100)
    ∧ (effective_duration duration clipId clip = none →
      getProgressPercentage currentTime duration clipId clip = 0)
    ∧ (∀ d : ℚ, effective_duration duration clipId clip = some d → d ≤ 0 →
      getProgressPercentage currentTime duration clipId clip = 0) := by
  refine ⟨?_, ?_, ?_, ?_⟩
  · unfold getProgressPercentage
    cases hd : effective_duration duration clipId clip with
    | none => norm_num
    | some d =>
      by_cases hle : d ≤ 0
      · simp [hle]
      · simp only [hle, if_false]
        constructor
        · exact le_min (by norm_num) (le_max_left 0 _)
        · exact min_le_left _ _
  · unfold getProgressPercentage_v2
    cases clip2 with
    | none =>
      cases hd : duration clipId with
      | none => norm_num
      | some d =>
        by_cases hle : d ≤ 0
        · simp [hle]
        · simp only [hle, if_false]
          constructor
          · exact le_min (by norm_num) (le_max_left 0 _)
          · exact min_le_left _ _
    | some p =>
      by_cases hle : getClipDuration duration p.1 p.2 ≤ 0
      · simp [hle]
      · simp only [hle, if_false]
        constructor
        · exact le_min (by norm_num) (le_max_left 0 _)
        · exact min_le_left _ _
  · intro hd
    unfold getProgressPercentage
    rw [hd]
  · intro d hd hle
    unfold getProgressPercentage
    rw [hd]
    simp [hle]

/-- Witness for C9's conditional clauses at a concrete map state with a
negative stored duration. -/
theorem c9_progress_in_range_witness :
    getProgressPercentage (fun _ => some 7) (fun _ => some (-3)) "c" none = 0 :=
  (c9_progress_in_range (fun _ => some 7) (fun _ => some (-3))
    (fun _ => none) none "c" none none).2.2.2 (-3) rfl (by norm_num)

/-- Helper: one heart-rate history update never exceeds MAX_POINTS
entries. -/
theorem update_hr_history_length_le (prev : List HRPoint) (e : HRPoint) :
    (update_hr_history prev e).length ≤ MAX_POINTS := by
  simp [update_hr_history, MAX_POINTS]
  omega

/-- C10: every biometrics heart-rate history update appends the newest
reading and keeps exactly the most recent MAX_POINTS (30) entries in
arrival order (the kept entries are the trailing slice of the
appended list), so after every fetch — any foldl of updates ending in
one — the history holds at most 30 points. -/
theorem c10_hr_history_bounded (prev : List HRPoint) (e : HRPoint)
    (hist0 : List HRPoint) (es : List HRPoint) :
    (update_hr_history prev e).length ≤ MAX_POINTS
    ∧ update_hr_history prev e
        = prev.drop (prev.length + 1 - MAX_POINTS) ++ [e]
    ∧ ((es ++ [e]).foldl update_hr_history hist0).length ≤ MAX_POINTS := by
  refine ⟨update_hr_history_length_le prev e, ?_, ?_⟩
  · show (prev ++ [e]).drop ((prev ++ [e]).length - MAX_POINTS)
        = prev.drop (prev.length + 1 - MAX_POINTS) ++ [e]
    rw [List.drop_append_eq_append_drop]
    have h1 : (prev ++ [e]).length - MAX_POINTS = prev.length + 1 - MAX_POINTS := by
      simp
    rw [h1]
    have hz : prev.length + 1 - MAX_POINTS - prev.length = 0 := by
      show prev.length + 1 - 30 - prev.length = 0
      omega
    rw [hz]
    rfl
  · rw [List.foldl_append]
    exact update_hr_history_length_le _ e

end Feelscape
